import Mathlib

/-!
Verification development for the avito_backend_test repository: a shallow
embedding of the domain model (internal/domain), the Postgres-backed
repositories (internal/repository), the candidate selector
(internal/service/utils/reviewers.go), and the service layer
(pull-request, team and user services), together with theorems settling
the specification claims.

Conventions of the embedding:
* the database is a value of type `St` (tables as lists of rows);
* timestamps are `Nat` values passed explicitly (`NOW()` becomes a
  parameter `now`);
* the randomness source (`rand.Perm`) becomes an explicit list of indices
  passed to the selector;
* Go errors become the inductive types `DBErr` (storage layer) and
  `SvcErr` (domain error taxonomy of internal/domain/errors.go, with
  `SvcErr.internal` standing for any fmt.Errorf-wrapped collaborator
  failure);
* the transaction manager's contract (spec 4.2, implemented by the
  external go-transaction-manager library) is modelled by explicit state
  threading: a unit of work receives the state and returns the new state
  inside `Except`; an error return carries no state, so the caller keeps
  the pre-call state, which is exactly commit-iff-no-error.
-/

/-- domain.User (internal/domain): user row of the users table. -/
structure User where
  userID : String
  username : String
  teamName : String
  isActive : Bool
deriving Repr, DecidableEq

/-- domain.TeamMember (internal/domain). -/
structure TeamMember where
  userID : String
  username : String
  isActive : Bool
deriving Repr, DecidableEq

/-- domain.Team (internal/domain). -/
structure Team where
  teamName : String
  members : List TeamMember
deriving Repr, DecidableEq

/-- domain.PRStatus: OPEN or MERGED. -/
inductive PRStatus where
  | opened
  | merged
deriving Repr, DecidableEq

/-- domain.PullRequest, with the pr_reviewers rows for this pull request
inlined as `assignedReviewers` (the hydrated shape the repository
returns). -/
structure PullRequest where
  pullRequestID : String
  pullRequestName : String
  authorID : String
  status : PRStatus
  createdAt : Option Nat
  mergedAt : Option Nat
  assignedReviewers : List String
deriving Repr, DecidableEq

/-- domain.PullRequestCreate. -/
structure PullRequestCreate where
  pullRequestID : String
  pullRequestName : String
  authorID : String
deriving Repr, DecidableEq

/-- PullRequest.IsMerged (internal/domain). -/
def PullRequest.isMerged (pr : PullRequest) : Bool :=
  pr.status == PRStatus.merged

/-- The persisted state: teams, users and pull_requests tables
(pr_reviewers inlined into each pull request). -/
structure St where
  teams : List String
  users : List User
  prs : List PullRequest
deriving Repr, DecidableEq

/-- Storage-layer errors: pgx.ErrNoRows, a uniqueness-constraint
violation, or any other driver error. -/
inductive DBErr where
  | noRows
  | uniqueViolation
  | other
deriving Repr, DecidableEq

/-- The domain error taxonomy of internal/domain/errors.go;
`internal e` stands for a collaborator error wrapped with fmt.Errorf
(not matched by value against any domain sentinel). -/
inductive SvcErr where
  | prExists
  | prNotFound
  | userNotFound
  | teamExists
  | teamNotFound
  | prMerged
  | notAssigned
  | noCandidate
  | internal (e : DBErr)
deriving Repr, DecidableEq

/-! ## Repository layer (internal/repository), modelled over `St` -/

/-- SELECT ... FROM pull_requests WHERE pull_request_id = $1 (PK lookup). -/
def findPR (st : St) (prID : String) : Option PullRequest :=
  st.prs.find? (fun pr => pr.pullRequestID == prID)

/-- PullRequestRepository.Exists. -/
def dbPRExists (st : St) (prID : String) : Bool :=
  (findPR st prID).isSome

/-- PullRequestRepository.CreatePullRequest: INSERT INTO pull_requests with
status OPEN and created_at assigned by the store; the primary key makes a
second insert of the same id a uniqueness violation. -/
def dbCreatePR (st : St) (prc : PullRequestCreate) (now : Nat) : Except DBErr St :=
  if dbPRExists st prc.pullRequestID then
    Except.error DBErr.uniqueViolation
  else
    Except.ok { st with prs := st.prs ++
      [{ pullRequestID := prc.pullRequestID
         pullRequestName := prc.pullRequestName
         authorID := prc.authorID
         status := PRStatus.opened
         createdAt := some now
         mergedAt := none
         assignedReviewers := [] }] }

/-- PullRequestRepository.AssignReviewer: INSERT INTO pr_reviewers; the
(pull_request_id, user_id) primary key rejects a duplicate pair, the
foreign key rejects a missing pull request. -/
def dbAssignReviewer (st : St) (prID reviewerID : String) : Except DBErr St :=
  match findPR st prID with
  | none => Except.error DBErr.other
  | some pr =>
    if reviewerID ∈ pr.assignedReviewers then
      Except.error DBErr.uniqueViolation
    else
      Except.ok { st with prs := st.prs.map (fun p =>
        if p.pullRequestID == prID then
          { p with assignedReviewers := p.assignedReviewers ++ [reviewerID] }
        else p) }

/-- PullRequestRepository.GetPullRequestByID: the row plus its
pr_reviewers; a missing row is pgx.ErrNoRows, mapped to ErrNotFound. -/
def dbGetPRByID (st : St) (prID : String) : Except DBErr PullRequest :=
  match findPR st prID with
  | none => Except.error DBErr.noRows
  | some pr => Except.ok pr

/-- PullRequestRepository.MergePullRequest: an unconditional UPDATE setting
status = MERGED and merged_at = now; updating zero rows is not an error. -/
def dbMergePR (st : St) (prID : String) (now : Nat) : St :=
  { st with prs := st.prs.map (fun pr =>
      if pr.pullRequestID == prID then
        { pr with status := PRStatus.merged, mergedAt := some now }
      else pr) }

/-- PullRequestRepository.RemoveReviewer: DELETE FROM pr_reviewers;
deleting zero rows is not an error. -/
def dbRemoveReviewer (st : St) (prID reviewerID : String) : St :=
  { st with prs := st.prs.map (fun pr =>
      if pr.pullRequestID == prID then
        { pr with assignedReviewers := pr.assignedReviewers.erase reviewerID }
      else pr) }

/-- PullRequestRepository.IsReviewerAssigned. -/
def dbIsReviewerAssigned (st : St) (prID userID : String) : Bool :=
  match findPR st prID with
  | none => false
  | some pr => userID ∈ pr.assignedReviewers

/-- UserRepository.GetByID. -/
def userGetByID (st : St) (userID : String) : Option User :=
  st.users.find? (fun u => u.userID == userID)

/-- UserRepository.GetActiveByTeam: active members of the team; the
NOT (user_id = ANY($2)) clause is only added when the exclusion list is
non-empty, mirroring the query builder. -/
def dbGetActiveByTeam (st : St) (teamName : String) (excludeUserIDs : List String) : List User :=
  let base := st.users.filter (fun u => u.teamName == teamName && u.isActive)
  if excludeUserIDs.isEmpty then base
  else base.filter (fun u => !(excludeUserIDs.contains u.userID))

/-- UserRepository.SetIsActive: UPDATE ... RETURNING; `none` models
pgx.ErrNoRows for a missing user. -/
def dbUserSetIsActive (st : St) (userID : String) (isActive : Bool) :
    Option (St × User) :=
  match userGetByID st userID with
  | none => none
  | some u =>
    some ({ st with users := st.users.map (fun v =>
              if v.userID == userID then { v with isActive := isActive } else v) },
          { u with isActive := isActive })

/-- TeamRepository.Exists. -/
def dbTeamExists (st : St) (teamName : String) : Bool :=
  st.teams.contains teamName

/-- TeamRepository.Create: INSERT INTO teams; the team_name primary key
rejects a duplicate. -/
def dbTeamCreate (st : St) (teamName : String) : Except DBErr St :=
  if dbTeamExists st teamName then Except.error DBErr.uniqueViolation
  else Except.ok { st with teams := st.teams ++ [teamName] }

/-- UserRepository.Upsert: INSERT ... ON CONFLICT (user_id) DO UPDATE; the
team_name foreign key rejects a missing team. -/
def dbUserUpsert (st : St) (m : TeamMember) (teamName : String) : Except DBErr St :=
  if dbTeamExists st teamName then
    if (st.users.find? (fun u => u.userID == m.userID)).isSome then
      Except.ok { st with users := st.users.map (fun u =>
        if u.userID == m.userID then
          { u with username := m.username, teamName := teamName, isActive := m.isActive }
        else u) }
    else
      Except.ok { st with users := st.users ++
        [{ userID := m.userID, username := m.username, teamName := teamName,
           isActive := m.isActive }] }
  else Except.error DBErr.other

/-! ## Candidate selector (internal/service/utils/reviewers.go) -/

/-- SelectRandomReviewers: `indices` stands for the output of
rand.Perm(len(candidates)); the Go code returns the candidates located at
the first `min(maxCount, len(candidates))` positions of that permutation.
Out-of-range indices (impossible for a real permutation) are skipped. -/
def selectRandomReviewers (indices : List Nat) (candidates : List User)
    (maxCount : Nat) : List User :=
  if candidates.isEmpty then []
  else
    let count := if candidates.length < maxCount then candidates.length else maxCount
    (indices.take count).filterMap (fun i => candidates.get? i)

/-! ## Repository interfaces of the pull-request service (part of
internal/service: the service is written against these interfaces and the
concrete Postgres repositories are injected in cmd/app/main.go). Reads
return a value, writes return the new state. -/

/-- PullRequestRepository interface consumed by PullRequestService. -/
structure PRRepoI where
  prExistsF : St → String → Except DBErr Bool
  createPullRequestF : St → PullRequestCreate → Except DBErr St
  assignReviewerF : St → String → String → Except DBErr St
  getPullRequestByIDF : St → String → Except DBErr PullRequest
  mergePullRequestF : St → String → Except DBErr St
  removeReviewerF : St → String → String → Except DBErr St
  isReviewerAssignedF : St → String → String → Except DBErr Bool

/-- UserRepository interface consumed by PullRequestService. -/
structure UserRepoI where
  getByIDF : St → String → Except DBErr User
  getActiveByTeamF : St → String → List String → Except DBErr (List User)

/-- The concrete Postgres-backed pull-request repository
(internal/repository/pullrequest_repository.go); `now` is the store
clock used for merged_at. -/
def pgPRRepo (now : Nat) : PRRepoI where
  prExistsF := fun st prID => Except.ok (dbPRExists st prID)
  createPullRequestF := fun st prc => dbCreatePR st prc now
  assignReviewerF := fun st prID rid => dbAssignReviewer st prID rid
  getPullRequestByIDF := fun st prID => dbGetPRByID st prID
  mergePullRequestF := fun st prID => Except.ok (dbMergePR st prID now)
  removeReviewerF := fun st prID rid => Except.ok (dbRemoveReviewer st prID rid)
  isReviewerAssignedF := fun st prID uid => Except.ok (dbIsReviewerAssigned st prID uid)

/-- The concrete Postgres-backed user repository
(internal/repository, user repository file). -/
def pgUserRepo : UserRepoI where
  getByIDF := fun st uid =>
    match userGetByID st uid with
    | none => Except.error DBErr.noRows
    | some u => Except.ok u
  getActiveByTeamF := fun st team exclude =>
    Except.ok (dbGetActiveByTeam st team exclude)

/-! ## Pull-request service (internal/service, PullRequestService) -/

/-- PullRequestService.getPRAuthor: translate the repository's not-found
into the domain user-not-found, wrap anything else. -/
def getPRAuthor (U : UserRepoI) (st : St) (authorID : String) : Except SvcErr User :=
  match U.getByIDF st authorID with
  | Except.error DBErr.noRows => Except.error SvcErr.userNotFound
  | Except.error e => Except.error (SvcErr.internal e)
  | Except.ok u => Except.ok u

/-- PullRequestService.getReviewCandidates: errors are wrapped, never
translated. -/
def getReviewCandidates (U : UserRepoI) (st : St) (teamName : String)
    (exclude : List String) : Except SvcErr (List User) :=
  match U.getActiveByTeamF st teamName exclude with
  | Except.error e => Except.error (SvcErr.internal e)
  | Except.ok cs => Except.ok cs

/-- The loop of PullRequestService.CreatePullRequest assigning each
selected reviewer in order, stopping at the first failure (wrapped). -/
def assignAll (R : PRRepoI) (prID : String) : St → List String → Except SvcErr St
  | st, [] => Except.ok st
  | st, rid :: rest =>
    match R.assignReviewerF st prID rid with
    | Except.error e => Except.error (SvcErr.internal e)
    | Except.ok st1 => assignAll R prID st1 rest

/-- PullRequestService.CreatePullRequest: the author is resolved first,
outside the transaction scope; the transactional unit of work then checks
id existence, computes the candidate set, selects up to two reviewers,
persists the pull request and the assignments, and reads the hydrated
result back. Storage errors inside the unit of work are wrapped with
context (SvcErr.internal), never mapped to a domain sentinel. -/
def createPullRequest (R : PRRepoI) (U : UserRepoI) (indices : List Nat)
    (st : St) (prc : PullRequestCreate) : Except SvcErr (St × PullRequest) :=
  match getPRAuthor U st prc.authorID with
  | Except.error e => Except.error e
  | Except.ok author =>
    match R.prExistsF st prc.pullRequestID with
    | Except.error e => Except.error (SvcErr.internal e)
    | Except.ok true => Except.error SvcErr.prExists
    | Except.ok false =>
      match getReviewCandidates U st author.teamName [prc.authorID] with
      | Except.error e => Except.error e
      | Except.ok candidates =>
        let reviewerIDs :=
          (selectRandomReviewers indices candidates 2).map (fun r => r.userID)
        match R.createPullRequestF st prc with
        | Except.error e => Except.error (SvcErr.internal e)
        | Except.ok st1 =>
          match assignAll R prc.pullRequestID st1 reviewerIDs with
          | Except.error e => Except.error e
          | Except.ok st2 =>
            match R.getPullRequestByIDF st2 prc.pullRequestID with
            | Except.error e => Except.error (SvcErr.internal e)
            | Except.ok pr => Except.ok (st2, pr)

/-- The state the caller observes after CreatePullRequest: the committed
state on success, the pre-call state when the transaction rolled back. -/
def createPullRequestPost (R : PRRepoI) (U : UserRepoI) (indices : List Nat)
    (st : St) (prc : PullRequestCreate) : St :=
  match createPullRequest R U indices st prc with
  | Except.ok (st1, _) => st1
  | Except.error _ => st

/-- PullRequestService.MergePullRequest: inside one transaction scope,
check existence (NotFound otherwise), run the unconditional merge update,
read the hydrated result back. No merged-state check is performed. -/
def mergePullRequest (R : PRRepoI) (st : St) (prID : String) :
    Except SvcErr (St × PullRequest) :=
  match R.prExistsF st prID with
  | Except.error e => Except.error (SvcErr.internal e)
  | Except.ok false => Except.error SvcErr.prNotFound
  | Except.ok true =>
    match R.mergePullRequestF st prID with
    | Except.error DBErr.noRows => Except.error SvcErr.prNotFound
    | Except.error e => Except.error (SvcErr.internal e)
    | Except.ok st1 =>
      match R.getPullRequestByIDF st1 prID with
      | Except.error e => Except.error (SvcErr.internal e)
      | Except.ok pr => Except.ok (st1, pr)

/-- PullRequestService.ReassignReviewer: all reads and writes inside one
transaction scope; the merged check precedes the assignment check, which
precedes old-reviewer resolution; the exclusion set is the author followed
by all currently assigned reviewers; an empty candidate set fails with
NoCandidate before any write. The impossible empty selection after a
non-empty candidate check (an index-out-of-range panic in Go) is modelled
as an internal failure. -/
def reassignReviewer (R : PRRepoI) (U : UserRepoI) (indices : List Nat)
    (st : St) (prID oldUserID : String) :
    Except SvcErr (St × PullRequest × String) :=
  match R.getPullRequestByIDF st prID with
  | Except.error DBErr.noRows => Except.error SvcErr.prNotFound
  | Except.error e => Except.error (SvcErr.internal e)
  | Except.ok pr =>
    if pr.isMerged then Except.error SvcErr.prMerged
    else
      match R.isReviewerAssignedF st prID oldUserID with
      | Except.error e => Except.error (SvcErr.internal e)
      | Except.ok false => Except.error SvcErr.notAssigned
      | Except.ok true =>
        match U.getByIDF st oldUserID with
        | Except.error DBErr.noRows => Except.error SvcErr.userNotFound
        | Except.error e => Except.error (SvcErr.internal e)
        | Except.ok oldReviewer =>
          let excludeIDs := pr.authorID :: pr.assignedReviewers
          match getReviewCandidates U st oldReviewer.teamName excludeIDs with
          | Except.error e => Except.error e
          | Except.ok candidates =>
            if candidates.isEmpty then Except.error SvcErr.noCandidate
            else
              match (selectRandomReviewers indices candidates 1).head? with
              | none => Except.error (SvcErr.internal DBErr.other)
              | some newReviewer =>
                match R.removeReviewerF st prID oldUserID with
                | Except.error e => Except.error (SvcErr.internal e)
                | Except.ok st1 =>
                  match R.assignReviewerF st1 prID newReviewer.userID with
                  | Except.error e => Except.error (SvcErr.internal e)
                  | Except.ok st2 =>
                    match R.getPullRequestByIDF st2 prID with
                    | Except.error e => Except.error (SvcErr.internal e)
                    | Except.ok pr1 => Except.ok (st2, pr1, newReviewer.userID)

/-- The state the caller observes after ReassignReviewer (rollback on
error). -/
def reassignReviewerPost (R : PRRepoI) (U : UserRepoI) (indices : List Nat)
    (st : St) (prID oldUserID : String) : St :=
  match reassignReviewer R U indices st prID oldUserID with
  | Except.ok (st1, _, _) => st1
  | Except.error _ => st

/-! ## Team service (internal/service/team/service.go) -/

/-- TeamRepository interface consumed by TeamService. -/
structure TeamRepoI where
  createF : St → String → Except DBErr St
  teamExistsF : St → String → Except DBErr Bool

/-- UserRepository.Upsert as consumed by TeamService. -/
structure TeamUserRepoI where
  upsertF : St → TeamMember → String → Except DBErr St

/-- Concrete Postgres team repository. -/
def pgTeamRepo : TeamRepoI where
  createF := fun st name => dbTeamCreate st name
  teamExistsF := fun st name => Except.ok (dbTeamExists st name)

/-- Concrete Postgres user repository as used by TeamService. -/
def pgTeamUserRepo : TeamUserRepoI where
  upsertF := fun st m team => dbUserUpsert st m team

/-- The member loop of TeamService.CreateTeam: upsert each initial member
in order, stopping at the first failure (wrapped). -/
def upsertAll (TU : TeamUserRepoI) (teamName : String) :
    St → List TeamMember → Except SvcErr St
  | st, [] => Except.ok st
  | st, m :: rest =>
    match TU.upsertF st m teamName with
    | Except.error e => Except.error (SvcErr.internal e)
    | Except.ok st1 => upsertAll TU teamName st1 rest

/-- TeamService.CreateTeam: one transaction scope containing the existence
check (AlreadyExists on a duplicate name), the team insert and every
member upsert; on success the input team value is returned. -/
def createTeam (T : TeamRepoI) (TU : TeamUserRepoI) (st : St) (team : Team) :
    Except SvcErr (St × Team) :=
  match T.teamExistsF st team.teamName with
  | Except.error e => Except.error (SvcErr.internal e)
  | Except.ok true => Except.error SvcErr.teamExists
  | Except.ok false =>
    match T.createF st team.teamName with
    | Except.error e => Except.error (SvcErr.internal e)
    | Except.ok st1 =>
      match upsertAll TU team.teamName st1 team.members with
      | Except.error e => Except.error e
      | Except.ok st2 => Except.ok (st2, team)

/-- The state the caller observes after CreateTeam (rollback on error). -/
def createTeamPost (T : TeamRepoI) (TU : TeamUserRepoI) (st : St) (team : Team) : St :=
  match createTeam T TU st team with
  | Except.ok (st1, _) => st1
  | Except.error _ => st

/-! ## User service (internal/service/users/service.go, the service wired
in cmd/app/main.go) -/

/-- UserService.SetIsActive of the wired user service: it delegates
directly to UserRepository.SetIsActive and maps a not-found row to the
domain user-not-found error. It reads no pull requests and performs no
reviewer cascade. -/
def userServiceSetIsActive (st : St) (userID : String) (isActive : Bool) :
    Except SvcErr (St × User) :=
  match dbUserSetIsActive st userID isActive with
  | none => Except.error SvcErr.userNotFound
  | some (st1, u) => Except.ok (st1, u)

/-- A sample user for the selector counterexample. -/
def c9User : User :=
  { userID := "u1", username := "U1", teamName := "team1", isActive := true }

/-- The state for the deactivation scenario: user u3 is an active reviewer
on the open pull request pr1 authored by a1, and c1 is an active teammate
eligible as a replacement. -/
def c1State : St :=
  { teams := ["team1"]
    users := [{ userID := "a1", username := "Author1", teamName := "team1", isActive := true },
              { userID := "u3", username := "User3", teamName := "team1", isActive := true },
              { userID := "c1", username := "Candidate1", teamName := "team1", isActive := true }]
    prs := [{ pullRequestID := "pr1", pullRequestName := "PR1", authorID := "a1",
              status := PRStatus.opened, createdAt := some 1, mergedAt := none,
              assignedReviewers := ["u3"] }] }

/-- The state c1State after the wired SetIsActive("u3", false): only the
is_active flag changes. -/
def c1StateAfter : St :=
  { c1State with
    users := [{ userID := "a1", username := "Author1", teamName := "team1", isActive := true },
              { userID := "u3", username := "User3", teamName := "team1", isActive := false },
              { userID := "c1", username := "Candidate1", teamName := "team1", isActive := true }] }

/-- A state holding an existing pull request p1 (authored by existing user
a0); the user "ghost" does not exist. -/
def c2State : St :=
  { teams := ["t"]
    users := [{ userID := "a0", username := "A0", teamName := "t", isActive := true }]
    prs := [{ pullRequestID := "p1", pullRequestName := "P1", authorID := "a0",
              status := PRStatus.opened, createdAt := some 1, mergedAt := none,
              assignedReviewers := [] }] }

/-- A pull-request repository exhibiting the create race of spec 4.3: the
pre-check reads a snapshot in which the id is still free, while the insert
hits the store's uniqueness constraint (a concurrent create committed in
between). All other operations behave as the Postgres repository. -/
def c3RaceRepo : PRRepoI :=
  { pgPRRepo 5 with
    prExistsF := fun _ _ => Except.ok false
    createPullRequestF := fun _ _ => Except.error DBErr.uniqueViolation }

/-- A state holding the already-merged pull request m1 (merged_at = 3). -/
def c4State : St :=
  { teams := ["t"]
    users := [{ userID := "a0", username := "A0", teamName := "t", isActive := true }]
    prs := [{ pullRequestID := "m1", pullRequestName := "M1", authorID := "a0",
              status := PRStatus.merged, createdAt := some 1, mergedAt := some 3,
              assignedReviewers := [] }] }

/-- Scenario C state: pr4 is open with reviewer r1 assigned; the team has
no other active member besides the author and r1, so the eligible
replacement set is empty. -/
def c6State : St :=
  { teams := ["t"]
    users := [{ userID := "a0", username := "A0", teamName := "t", isActive := true },
              { userID := "r1", username := "R1", teamName := "t", isActive := true },
              { userID := "r2", username := "R2", teamName := "t", isActive := false }]
    prs := [{ pullRequestID := "pr4", pullRequestName := "PR4", authorID := "a0",
              status := PRStatus.opened, createdAt := some 1, mergedAt := none,
              assignedReviewers := ["r1"] }] }

/-- A state admitting a successful reassignment: pr5 is open, r1 assigned,
and the active teammate r2 is an eligible replacement. -/
def c7State : St :=
  { teams := ["t"]
    users := [{ userID := "a0", username := "A0", teamName := "t", isActive := true },
              { userID := "r1", username := "R1", teamName := "t", isActive := true },
              { userID := "r2", username := "R2", teamName := "t", isActive := true }]
    prs := [{ pullRequestID := "pr5", pullRequestName := "PR5", authorID := "a0",
              status := PRStatus.opened, createdAt := some 1, mergedAt := none,
              assignedReviewers := ["r1"] }] }

/-- The pull request pr5 after the successful reassignment: r2 replaced r1. -/
def c7PRAfter : PullRequest :=
  { pullRequestID := "pr5", pullRequestName := "PR5", authorID := "a0",
    status := PRStatus.opened, createdAt := some 1, mergedAt := none,
    assignedReviewers := ["r2"] }

/-- The state c7State after the successful reassignment. -/
def c7StateAfter : St :=
  { c7State with prs := [c7PRAfter] }

/-- The pull request pr5 before the reassignment. -/
def c7PRBefore : PullRequest :=
  { pullRequestID := "pr5", pullRequestName := "PR5", authorID := "a0",
    status := PRStatus.opened, createdAt := some 1, mergedAt := none,
    assignedReviewers := ["r1"] }

/-- Invariant 1 of the data model: no pull request's author sits in its
own reviewer set. -/
def PRInv (st : St) : Prop :=
  ∀ pr ∈ st.prs, pr.authorID ∉ pr.assignedReviewers

/-- Every pull request of the state keyed by `prID` has author `author`. -/
def AuthorsOK (prID author : String) (st : St) : Prop :=
  ∀ pr ∈ st.prs, pr.pullRequestID = prID → pr.authorID = author

/-- Pull-request ids are unique (the store's primary key). -/
def UniquePRIds (st : St) : Prop :=
  (st.prs.map (fun pr => pr.pullRequestID)).Nodup

/-- The committed state after creating p9 on c7State with permutation
[0, 1] at time 2. -/
def c8CreateAfter : St :=
  { c7State with prs := c7State.prs ++
      [{ pullRequestID := "p9", pullRequestName := "P9", authorID := "a0",
         status := PRStatus.opened, createdAt := some 2, mergedAt := none,
         assignedReviewers := ["r1", "r2"] }] }

/-- The created pull request p9: both active teammates assigned. -/
def c8CreatedPR : PullRequest :=
  { pullRequestID := "p9", pullRequestName := "P9", authorID := "a0",
    status := PRStatus.opened, createdAt := some 2, mergedAt := none,
    assignedReviewers := ["r1", "r2"] }

/-- The merged pr5 row after merging c7State at time 9. -/
def c8MergedPR : PullRequest :=
  { pullRequestID := "pr5", pullRequestName := "PR5", authorID := "a0",
    status := PRStatus.merged, createdAt := some 1, mergedAt := some 9,
    assignedReviewers := ["r1"] }

/-- A user repository whose upsert fails for one specific user id,
modelling a storage failure in the middle of the member loop. -/
def c10FaultyUserRepo (bad : String) : TeamUserRepoI where
  upsertF := fun st m team =>
    if m.userID == bad then Except.error DBErr.other else dbUserUpsert st m team

/-- The initial state for the team-creation witness: one unrelated team. -/
def c10State : St :=
  { teams := ["existing"], users := [], prs := [] }

/-- The team whose second member hits the faulty upsert. -/
def c10Team : Team :=
  { teamName := "newteam"
    members := [{ userID := "u1", username := "U1", isActive := true },
                { userID := "u2", username := "U2", isActive := true },
                { userID := "u3", username := "U3", isActive := true }] }

/-! ## Lemmas about the candidate selector -/

/-- Every element the selector returns comes from the candidate list. -/
theorem selectRandomReviewers_mem (indices : List Nat) (candidates : List User)
    (maxCount : Nat) :
    ∀ u ∈ selectRandomReviewers indices candidates maxCount, u ∈ candidates := by
  intro u hu
  unfold selectRandomReviewers at hu
  split at hu
  · simp at hu
  · simp only [List.mem_filterMap] at hu
    obtain ⟨i, _, hget⟩ := hu
    exact List.get?_mem hget

theorem filterMap_get?_length (candidates : List User) :
    ∀ l : List Nat, (∀ i ∈ l, i < candidates.length) →
      (l.filterMap (fun i => candidates.get? i)).length = l.length := by
  intro l
  induction l with
  | nil => intro _; simp
  | cons i t ih =>
    intro h
    have hi : i < candidates.length := h i (List.mem_cons_self i t)
    have hu : candidates.get? i = some (candidates.get ⟨i, hi⟩) := List.get?_eq_get hi
    simp only [List.filterMap_cons, hu, List.length_cons]
    rw [ih fun j hj => h j (List.mem_cons_of_mem i hj)]

theorem filterMap_get?_nodup (candidates : List User) (hcs : candidates.Nodup) :
    ∀ l : List Nat, l.Nodup → (∀ i ∈ l, i < candidates.length) →
      (l.filterMap (fun i => candidates.get? i)).Nodup := by
  intro l
  induction l with
  | nil => intro _ _; simp
  | cons i t ih =>
    intro hnd h
    have hi : i < candidates.length := h i (List.mem_cons_self i t)
    have hu : candidates.get? i = some (candidates.get ⟨i, hi⟩) := List.get?_eq_get hi
    simp only [List.filterMap_cons, hu]
    refine List.Nodup.cons ?_ (ih (List.Nodup.of_cons hnd)
      fun j hj => h j (List.mem_cons_of_mem i hj))
    intro hmem
    simp only [List.mem_filterMap] at hmem
    obtain ⟨j, hjt, hget⟩ := hmem
    have hj : j < candidates.length := h j (List.mem_cons_of_mem i hjt)
    have : i = j := by
      apply List.getElem?_inj hi hcs
      rw [← List.get?_eq_getElem?, ← List.get?_eq_getElem?, hu, hget]
    exact (List.nodup_cons.mp hnd).1 (this ▸ hjt)

/-- C9 counterexample: on an input list containing the same user twice,
the selector (run with the identity permutation [0, 1] = range 2) returns
that user twice, so the result's elements are not pairwise distinct; the
claim's distinctness guarantee fails for general input lists. -/
theorem c9_selector_counterexample :
    [0, 1] = List.range 2
    ∧ selectRandomReviewers [0, 1] [c9User, c9User] 2 = [c9User, c9User]
    ∧ ¬ (selectRandomReviewers [0, 1] [c9User, c9User] 2).Nodup := by
  refine ⟨by decide, by decide, by decide⟩

/-- C9 (amended): for every candidate list, every maximum count k and every
permutation of the candidate index range, the selector returns exactly
min(k, number of candidates) elements, each drawn from the input list at
pairwise-distinct positions — hence pairwise-distinct elements whenever
the input list itself has no duplicates — and an empty input yields an
empty result (the function is total: never an error). -/
theorem c9_selector_spec (indices : List Nat) (candidates : List User) (k : Nat)
    (hperm : indices.Perm (List.range candidates.length)) :
    (selectRandomReviewers indices candidates k).length = min k candidates.length
    ∧ (∀ u ∈ selectRandomReviewers indices candidates k, u ∈ candidates)
    ∧ (candidates.Nodup → (selectRandomReviewers indices candidates k).Nodup)
    ∧ (candidates = [] → selectRandomReviewers indices candidates k = []) := by
  have hmem : ∀ i ∈ indices, i < candidates.length := by
    intro i hi
    exact List.mem_range.mp (hperm.mem_iff.mp hi)
  have hlen : indices.length = candidates.length := by
    rw [hperm.length_eq, List.length_range]
  refine ⟨?_, selectRandomReviewers_mem indices candidates k, ?_, ?_⟩
  · unfold selectRandomReviewers
    split
    · rename_i hemp
      rw [List.isEmpty_iff.mp hemp]
      simp
    · rename_i hemp
      rw [filterMap_get?_length candidates _
        (fun i hi => hmem i (List.take_subset _ _ hi))]
      rw [List.length_take, hlen]
      split
      · rename_i hlt
        omega
      · rename_i hlt
        omega
  · intro hnd
    unfold selectRandomReviewers
    split
    · exact List.nodup_nil
    · exact filterMap_get?_nodup candidates hnd _
        (((hperm.nodup_iff).mpr (List.nodup_range _)).sublist (List.take_sublist _ _))
        (fun i hi => hmem i (List.take_subset _ _ hi))
  · intro hnil
    subst hnil
    rfl

/-- Witness for C9: a concrete run with three candidates, k = 2 and the
permutation [2, 0, 1]. -/
theorem c9_selector_spec_witness :
    (selectRandomReviewers [2, 0, 1]
      [{ userID := "a", username := "A", teamName := "t", isActive := true },
       { userID := "b", username := "B", teamName := "t", isActive := true },
       { userID := "c", username := "C", teamName := "t", isActive := true }] 2).length
        = min 2 3
    ∧ (∀ u ∈ selectRandomReviewers [2, 0, 1]
      [{ userID := "a", username := "A", teamName := "t", isActive := true },
       { userID := "b", username := "B", teamName := "t", isActive := true },
       { userID := "c", username := "C", teamName := "t", isActive := true }] 2,
        u ∈ [{ userID := "a", username := "A", teamName := "t", isActive := true },
       { userID := "b", username := "B", teamName := "t", isActive := true },
       { userID := "c", username := "C", teamName := "t", isActive := true }]) := by
  have h := c9_selector_spec [2, 0, 1]
    [{ userID := "a", username := "A", teamName := "t", isActive := true },
     { userID := "b", username := "B", teamName := "t", isActive := true },
     { userID := "c", username := "C", teamName := "t", isActive := true }] 2
    (by decide)
  exact ⟨h.1, h.2.1⟩

/-- C1: deactivating u3 through the wired user service succeeds but leaves
u3 assigned to the open pull request pr1 and does not add the eligible
candidate c1: no reassignment cascade runs; the pull-request table is
untouched. This contradicts spec 4.6 / Scenario D (and the repository's
own cascade test), which require u3 to be removed from pr1 and c1 added
before the flag becomes false. -/
theorem c1_deactivation_no_cascade :
    userServiceSetIsActive c1State "u3" false =
      Except.ok (c1StateAfter,
        { userID := "u3", username := "User3", teamName := "team1", isActive := false })
    ∧ dbIsReviewerAssigned c1StateAfter "pr1" "u3" = true
    ∧ dbIsReviewerAssigned c1StateAfter "pr1" "c1" = false
    ∧ c1StateAfter.prs = c1State.prs := by
  refine ⟨by rfl, by decide, by decide, by decide⟩

/-- C2 counterexample: the pull-request id "p1" already exists, yet a
create request naming the missing author "ghost" fails with
NotFound(user), not AlreadyExists — because the service resolves the
author first, outside the transaction scope, before the id-existence
check. -/
theorem c2_create_order_counterexample :
    dbPRExists c2State "p1" = true
    ∧ userGetByID c2State "ghost" = none
    ∧ createPullRequest (pgPRRepo 5) pgUserRepo [] c2State
        { pullRequestID := "p1", pullRequestName := "dup", authorID := "ghost" }
        = Except.error SvcErr.userNotFound
    ∧ (Except.error SvcErr.userNotFound
        ≠ (Except.error SvcErr.prExists : Except SvcErr (St × PullRequest))) := by
  refine ⟨by decide, by rfl, by rfl, by simp⟩

/-- C2 (amended): pull-request creation resolves the author first (outside
the transaction scope) and only then, inside the transaction, checks id
existence; hence a create request whose id already exists fails with
AlreadyExists — and mutates nothing — provided the author exists, while a
missing author always yields NotFound(user) instead. -/
theorem c2_create_order (now : Nat) (indices : List Nat) (st : St)
    (prc : PullRequestCreate) (a : User)
    (hauthor : userGetByID st prc.authorID = some a)
    (hexists : dbPRExists st prc.pullRequestID = true) :
    createPullRequest (pgPRRepo now) pgUserRepo indices st prc
      = Except.error SvcErr.prExists
    ∧ createPullRequestPost (pgPRRepo now) pgUserRepo indices st prc = st
    ∧ (∀ (st2 : St) (prc2 : PullRequestCreate),
        userGetByID st2 prc2.authorID = none →
        createPullRequest (pgPRRepo now) pgUserRepo indices st2 prc2
          = Except.error SvcErr.userNotFound) := by
  have h1 : createPullRequest (pgPRRepo now) pgUserRepo indices st prc
      = Except.error SvcErr.prExists := by
    unfold createPullRequest getPRAuthor
    simp [pgUserRepo, pgPRRepo, hauthor, hexists]
  refine ⟨h1, ?_, ?_⟩
  · unfold createPullRequestPost
    rw [h1]
  · intro st2 prc2 hmiss
    unfold createPullRequest getPRAuthor
    simp [pgUserRepo, hmiss]

/-- Witness for C2 (amended): the existing author a0 re-submitting the
taken id p1 gets AlreadyExists and the state is unchanged. -/
theorem c2_create_order_witness :
    createPullRequest (pgPRRepo 5) pgUserRepo [] c2State
      { pullRequestID := "p1", pullRequestName := "dup", authorID := "a0" }
      = Except.error SvcErr.prExists
    ∧ createPullRequestPost (pgPRRepo 5) pgUserRepo [] c2State
      { pullRequestID := "p1", pullRequestName := "dup", authorID := "a0" } = c2State := by
  have h := c2_create_order 5 [] c2State
    { pullRequestID := "p1", pullRequestName := "dup", authorID := "a0" }
    { userID := "a0", username := "A0", teamName := "t", isActive := true }
    (by rfl) (by decide)
  exact ⟨h.1, h.2.1⟩

/-- C3 counterexample: when the pre-check passes but the store reports a
uniqueness-constraint conflict while persisting, the creation operation
surfaces a wrapped internal failure — not the AlreadyExists failure the
pre-check produces. -/
theorem c3_unique_conflict_counterexample :
    createPullRequest c3RaceRepo pgUserRepo [] c2State
      { pullRequestID := "p2", pullRequestName := "P2", authorID := "a0" }
      = Except.error (SvcErr.internal DBErr.uniqueViolation)
    ∧ (Except.error (SvcErr.internal DBErr.uniqueViolation)
        ≠ (Except.error SvcErr.prExists : Except SvcErr (St × PullRequest))) := by
  refine ⟨by rfl, by simp⟩

/-- C3 (amended): a uniqueness-constraint conflict reported by the store
while persisting a new pull request (after a passing pre-check) is wrapped
with operation context and surfaced as an internal failure; it is not
translated to the AlreadyExists failure — only the pre-check produces
AlreadyExists. -/
theorem c3_unique_conflict_internal (R : PRRepoI) (U : UserRepoI)
    (indices : List Nat) (st : St) (prc : PullRequestCreate) (a : User)
    (cs : List User)
    (hauthor : U.getByIDF st prc.authorID = Except.ok a)
    (hpre : R.prExistsF st prc.pullRequestID = Except.ok false)
    (hcands : U.getActiveByTeamF st a.teamName [prc.authorID] = Except.ok cs)
    (hconflict : R.createPullRequestF st prc = Except.error DBErr.uniqueViolation) :
    createPullRequest R U indices st prc
      = Except.error (SvcErr.internal DBErr.uniqueViolation)
    ∧ createPullRequest R U indices st prc ≠ Except.error SvcErr.prExists := by
  have h1 : createPullRequest R U indices st prc
      = Except.error (SvcErr.internal DBErr.uniqueViolation) := by
    unfold createPullRequest getPRAuthor getReviewCandidates
    simp [hauthor, hpre, hcands, hconflict]
  exact ⟨h1, by rw [h1]; simp⟩

/-- Witness for C3 (amended), instantiated with the racing repository. -/
theorem c3_unique_conflict_internal_witness :
    createPullRequest c3RaceRepo pgUserRepo [7] c2State
      { pullRequestID := "p2", pullRequestName := "P2", authorID := "a0" }
      = Except.error (SvcErr.internal DBErr.uniqueViolation) := by
  exact (c3_unique_conflict_internal c3RaceRepo pgUserRepo [7] c2State
    { pullRequestID := "p2", pullRequestName := "P2", authorID := "a0" }
    { userID := "a0", username := "A0", teamName := "t", isActive := true }
    [] (by rfl) (by rfl) (by rfl) (by rfl)).1

/-- A keyed UPDATE (map with a conditional update preserving the key)
commutes with the primary-key lookup. -/
theorem find?_map_update (l : List PullRequest) (prID : String)
    (f : PullRequest → PullRequest)
    (hid : ∀ pr, (f pr).pullRequestID = pr.pullRequestID) :
    (l.map (fun pr => if pr.pullRequestID == prID then f pr else pr)).find?
        (fun pr => pr.pullRequestID == prID)
      = (l.find? (fun pr => pr.pullRequestID == prID)).map f := by
  induction l with
  | nil => rfl
  | cons p t ih =>
    simp only [List.map_cons]
    by_cases h : p.pullRequestID = prID
    · have hb : (fun pr : PullRequest => pr.pullRequestID == prID) p = true := by
        simp [h]
      have hfb : (fun pr : PullRequest => pr.pullRequestID == prID) (f p) = true := by
        simp [hid p, h]
      rw [if_pos hb,
        @List.find?_cons_of_pos _ (fun pr => pr.pullRequestID == prID) (f p) _ hfb,
        @List.find?_cons_of_pos _ (fun pr => pr.pullRequestID == prID) p _ hb]
      rfl
    · have hb : ¬ (fun pr : PullRequest => pr.pullRequestID == prID) p = true := by
        simp [h]
      rw [if_neg hb,
        @List.find?_cons_of_neg _ (fun pr => pr.pullRequestID == prID) p _ hb,
        @List.find?_cons_of_neg _ (fun pr => pr.pullRequestID == prID) p _ hb, ih]

/-- The merge UPDATE rewrites the looked-up row (status MERGED, merged_at
overwritten) and nothing else about the lookup. -/
theorem findPR_dbMergePR (st : St) (prID : String) (now : Nat) :
    findPR (dbMergePR st prID now) prID
      = (findPR st prID).map
          (fun pr => { pr with status := PRStatus.merged, mergedAt := some now }) := by
  unfold findPR dbMergePR
  exact find?_map_update st.prs prID _ (fun pr => rfl)

/-- C4: merging an already-MERGED pull request succeeds: the existence
check passes, the unconditional UPDATE re-stamps merged_at with the
current store time, and the hydrated pull request is returned with no
error — in particular no InvalidState failure — and the stored row's
merge timestamp is overwritten with `now`. -/
theorem c4_merge_on_merged (st : St) (prID : String) (now : Nat)
    (pr0 : PullRequest) (hfind : findPR st prID = some pr0)
    (_hmerged : pr0.status = PRStatus.merged) :
    mergePullRequest (pgPRRepo now) st prID
      = Except.ok (dbMergePR st prID now,
          { pr0 with status := PRStatus.merged, mergedAt := some now })
    ∧ findPR (dbMergePR st prID now) prID
        = some { pr0 with status := PRStatus.merged, mergedAt := some now } := by
  have hfind1 : findPR (dbMergePR st prID now) prID
      = some { pr0 with status := PRStatus.merged, mergedAt := some now } := by
    rw [findPR_dbMergePR, hfind]
    rfl
  constructor
  · unfold mergePullRequest
    simp only [pgPRRepo]
    rw [show dbPRExists st prID = true by simp [dbPRExists, hfind]]
    simp only [dbGetPRByID, hfind1]
  · exact hfind1

/-- Witness for C4: re-merging m1 at time 7 succeeds and overwrites the
stored merge timestamp 3 with 7. -/
theorem c4_merge_on_merged_witness :
    mergePullRequest (pgPRRepo 7) c4State "m1"
      = Except.ok (dbMergePR c4State "m1" 7,
          { pullRequestID := "m1", pullRequestName := "M1", authorID := "a0",
            status := PRStatus.merged, createdAt := some 1, mergedAt := some 7,
            assignedReviewers := [] })
    ∧ findPR (dbMergePR c4State "m1" 7) "m1"
        = some { pullRequestID := "m1", pullRequestName := "M1", authorID := "a0",
                 status := PRStatus.merged, createdAt := some 1, mergedAt := some 7,
                 assignedReviewers := [] } := by
  exact c4_merge_on_merged c4State "m1" 7
    { pullRequestID := "m1", pullRequestName := "M1", authorID := "a0",
      status := PRStatus.merged, createdAt := some 1, mergedAt := some 3,
      assignedReviewers := [] } (by rfl) (by rfl)

/-- C5: on a MERGED pull request, ReassignReviewer fails with InvalidState
(ErrPRMerged) for every old-reviewer id — whether or not that id is
assigned or even names an existing user — and the observed state is the
unchanged pre-call state: the merged check precedes the assignment check
and every write. -/
theorem c5_reassign_merged (indices : List Nat) (st : St)
    (prID oldUserID : String) (now : Nat) (pr0 : PullRequest)
    (hfind : findPR st prID = some pr0)
    (hmerged : pr0.status = PRStatus.merged) :
    reassignReviewer (pgPRRepo now) pgUserRepo indices st prID oldUserID
      = Except.error SvcErr.prMerged
    ∧ reassignReviewerPost (pgPRRepo now) pgUserRepo indices st prID oldUserID
      = st := by
  have h1 : reassignReviewer (pgPRRepo now) pgUserRepo indices st prID oldUserID
      = Except.error SvcErr.prMerged := by
    unfold reassignReviewer
    simp [pgPRRepo, dbGetPRByID, hfind, PullRequest.isMerged, hmerged]
  refine ⟨h1, ?_⟩
  unfold reassignReviewerPost
  rw [h1]

/-- Witness for C5: reassigning "nobody" (not assigned, not an existing
user) on the merged pull request m1 fails with InvalidState and leaves
the state unchanged. -/
theorem c5_reassign_merged_witness :
    reassignReviewer (pgPRRepo 9) pgUserRepo [0] c4State "m1" "nobody"
      = Except.error SvcErr.prMerged
    ∧ reassignReviewerPost (pgPRRepo 9) pgUserRepo [0] c4State "m1" "nobody"
      = c4State := by
  exact c5_reassign_merged [0] c4State "m1" "nobody" 9
    { pullRequestID := "m1", pullRequestName := "M1", authorID := "a0",
      status := PRStatus.merged, createdAt := some 1, mergedAt := some 3,
      assignedReviewers := [] } (by rfl) (by rfl)

/-- C6: on an open pull request with the old reviewer assigned, when the
eligible replacement set (active members of the old reviewer's team minus
the author and every currently assigned reviewer) is empty, the
reassignment fails with NoCandidate before any write: the observed state
is the unchanged pre-call state and the old reviewer remains assigned. -/
theorem c6_reassign_no_candidate (indices : List Nat) (st : St)
    (prID oldUserID : String) (now : Nat) (pr0 : PullRequest) (oldU : User)
    (hfind : findPR st prID = some pr0)
    (hopen : pr0.status = PRStatus.opened)
    (hassigned : oldUserID ∈ pr0.assignedReviewers)
    (holdU : userGetByID st oldUserID = some oldU)
    (hempty : dbGetActiveByTeam st oldU.teamName
        (pr0.authorID :: pr0.assignedReviewers) = []) :
    reassignReviewer (pgPRRepo now) pgUserRepo indices st prID oldUserID
      = Except.error SvcErr.noCandidate
    ∧ reassignReviewerPost (pgPRRepo now) pgUserRepo indices st prID oldUserID
      = st
    ∧ dbIsReviewerAssigned
        (reassignReviewerPost (pgPRRepo now) pgUserRepo indices st prID oldUserID)
        prID oldUserID = true := by
  have h1 : reassignReviewer (pgPRRepo now) pgUserRepo indices st prID oldUserID
      = Except.error SvcErr.noCandidate := by
    unfold reassignReviewer getReviewCandidates
    simp [pgPRRepo, pgUserRepo, dbGetPRByID, hfind, PullRequest.isMerged, hopen,
      dbIsReviewerAssigned, hassigned, holdU, hempty]
  have h2 : reassignReviewerPost (pgPRRepo now) pgUserRepo indices st prID oldUserID
      = st := by
    unfold reassignReviewerPost
    rw [h1]
  refine ⟨h1, h2, ?_⟩
  rw [h2]
  simp [dbIsReviewerAssigned, hfind, hassigned]

/-- Witness for C6: reassigning r1 on pr4 in c6State fails with
NoCandidate and r1 remains assigned. -/
theorem c6_reassign_no_candidate_witness :
    reassignReviewer (pgPRRepo 9) pgUserRepo [0] c6State "pr4" "r1"
      = Except.error SvcErr.noCandidate
    ∧ reassignReviewerPost (pgPRRepo 9) pgUserRepo [0] c6State "pr4" "r1" = c6State
    ∧ dbIsReviewerAssigned
        (reassignReviewerPost (pgPRRepo 9) pgUserRepo [0] c6State "pr4" "r1")
        "pr4" "r1" = true := by
  exact c6_reassign_no_candidate [0] c6State "pr4" "r1" 9
    { pullRequestID := "pr4", pullRequestName := "PR4", authorID := "a0",
      status := PRStatus.opened, createdAt := some 1, mergedAt := none,
      assignedReviewers := ["r1"] }
    { userID := "r1", username := "R1", teamName := "t", isActive := true }
    (by rfl) (by rfl) (by decide) (by rfl) (by decide)

/-- A user returned by GetActiveByTeam with a non-empty exclusion list is
not one of the excluded ids. -/
theorem mem_dbGetActiveByTeam_not_excluded (st : St) (team : String)
    (x : String) (xs : List String) (u : User)
    (hu : u ∈ dbGetActiveByTeam st team (x :: xs)) :
    u.userID ∉ (x :: xs) := by
  unfold dbGetActiveByTeam at hu
  simp only [List.isEmpty_cons, if_false, Bool.false_eq_true, ite_false] at hu
  have := (List.mem_filter.mp hu).2
  simpa using this

/-- C7: whenever ReassignReviewer succeeds, the returned new reviewer id
differs from the pull request's author id and from every reviewer id
assigned before the call (including the one replaced): selection draws
only from candidates outside the exclusion set built from the author and
all current reviewers. -/
theorem c7_reassign_excludes (indices : List Nat) (st : St)
    (prID oldUserID : String) (now : Nat) (st1 : St) (pr1 : PullRequest)
    (newID : String) (pr0 : PullRequest)
    (hok : reassignReviewer (pgPRRepo now) pgUserRepo indices st prID oldUserID
      = Except.ok (st1, pr1, newID))
    (hfind : findPR st prID = some pr0) :
    newID ≠ pr0.authorID ∧ newID ∉ pr0.assignedReviewers := by
  unfold reassignReviewer getReviewCandidates at hok
  simp only [pgPRRepo, pgUserRepo, dbGetPRByID] at hok
  rw [hfind] at hok
  split at hok
  · exact absurd hok (by simp)
  · exact absurd hok (by simp)
  · rename_i prx heq
    have hprx : prx = pr0 := (Except.ok.inj heq).symm
    subst hprx
    split at hok
    · exact absurd hok (by simp)
    · split at hok
      · exact absurd hok (by simp)
      · exact absurd hok (by simp)
      · split at hok
        · exact absurd hok (by simp)
        · exact absurd hok (by simp)
        · rename_i oldR holdR
          split at hok
          · exact absurd hok (by simp)
          · split at hok
            · exact absurd hok (by simp)
            · rename_i newR hhead
              have hmem : newR ∈ dbGetActiveByTeam st oldR.teamName
                  (prx.authorID :: prx.assignedReviewers) :=
                selectRandomReviewers_mem indices
                  (dbGetActiveByTeam st oldR.teamName
                    (prx.authorID :: prx.assignedReviewers)) 1 newR
                  (List.mem_of_mem_head? (by simp [hhead]))
              have hexcl := mem_dbGetActiveByTeam_not_excluded _ _ _ _ _ hmem
              split at hok
              · exact absurd hok (by simp)
              · split at hok
                · exact absurd hok (by simp)
                · simp only [Except.ok.injEq, Prod.mk.injEq] at hok
                  obtain ⟨-, -, hnew⟩ := hok
                  subst hnew
                  simp only [List.mem_cons, not_or] at hexcl
                  exact ⟨hexcl.1, hexcl.2⟩

/-- Witness for C7: the successful reassignment of r1 on pr5 returns the
new reviewer r2, distinct from the author a0 and from the pre-call
reviewer set ["r1"]. -/
theorem c7_reassign_excludes_witness :
    ("r2" : String) ≠ c7PRBefore.authorID
    ∧ ("r2" : String) ∉ c7PRBefore.assignedReviewers := by
  exact c7_reassign_excludes [0] c7State "pr5" "r1" 9
    c7StateAfter c7PRAfter "r2" c7PRBefore (by rfl) (by rfl)

/-- A successful AssignReviewer is exactly the keyed append. -/
theorem dbAssignReviewer_ok (s : St) (prID rid : String) (s' : St)
    (h : dbAssignReviewer s prID rid = Except.ok s') :
    s' = { s with prs := s.prs.map (fun p =>
      if p.pullRequestID == prID then
        { p with assignedReviewers := p.assignedReviewers ++ [rid] }
      else p) } := by
  unfold dbAssignReviewer at h
  split at h
  · exact absurd h (by simp)
  · split at h
    · exact absurd h (by simp)
    · exact (Except.ok.inj h).symm

/-- The keyed reviewer append preserves the author invariant (when the
appended id is not the key's author) and the author map. -/
theorem prInv_map_assign (s : St) (prID rid author : String)
    (hinv : PRInv s) (hAuth : AuthorsOK prID author s) (hrid : rid ≠ author) :
    PRInv { s with prs := s.prs.map (fun p =>
      if p.pullRequestID == prID then
        { p with assignedReviewers := p.assignedReviewers ++ [rid] }
      else p) }
    ∧ AuthorsOK prID author { s with prs := s.prs.map (fun p =>
      if p.pullRequestID == prID then
        { p with assignedReviewers := p.assignedReviewers ++ [rid] }
      else p) } := by
  constructor
  · intro pr' hpr'
    simp only [List.mem_map] at hpr'
    obtain ⟨p, hp, rfl⟩ := hpr'
    by_cases hid : p.pullRequestID = prID
    · subst hid
      simp only [beq_self_eq_true, if_true, List.mem_append, List.mem_singleton, not_or]
      exact ⟨hinv p hp, fun hc => hrid (by rw [← hc, hAuth p hp rfl])⟩
    · rw [if_neg (by simp [hid])]
      exact hinv p hp
  · intro pr' hpr' hid'
    simp only [List.mem_map] at hpr'
    obtain ⟨p, hp, rfl⟩ := hpr'
    by_cases hid : p.pullRequestID = prID
    · subst hid
      simp only [beq_self_eq_true, if_true]
      exact hAuth p hp rfl
    · rw [if_neg (by simp [hid])] at hid' ⊢
      exact absurd hid' hid

/-- The reviewer-assignment loop of creation preserves the author
invariant when every assigned id avoids the key's author. -/
theorem assignAll_inv (now : Nat) (prID author : String) :
    ∀ (rids : List String) (s s' : St),
    assignAll (pgPRRepo now) prID s rids = Except.ok s' →
    PRInv s → AuthorsOK prID author s →
    (∀ rid ∈ rids, rid ≠ author) →
    PRInv s' ∧ AuthorsOK prID author s' := by
  intro rids
  induction rids with
  | nil =>
    intro s s' h hinv hAuth _
    simp only [assignAll] at h
    exact (Except.ok.inj h) ▸ ⟨hinv, hAuth⟩
  | cons rid rest ih =>
    intro s s' h hinv hAuth hr
    simp only [assignAll, pgPRRepo] at h
    split at h
    · exact absurd h (by simp)
    · rename_i s1 hs1
      have hs1eq := dbAssignReviewer_ok s prID rid s1 hs1
      subst hs1eq
      obtain ⟨hinv1, hAuth1⟩ := prInv_map_assign s prID rid author hinv hAuth
        (hr rid (List.mem_cons_self rid rest))
      exact ih _ s' h hinv1 hAuth1
        (fun r hrr => hr r (List.mem_cons_of_mem rid hrr))

/-- A successful pull-request insert appends exactly the fresh OPEN row,
and certifies the id was free. -/
theorem dbCreatePR_ok (st : St) (prc : PullRequestCreate) (now : Nat) (st1 : St)
    (h : dbCreatePR st prc now = Except.ok st1) :
    st1 = { st with prs := st.prs ++
      [{ pullRequestID := prc.pullRequestID
         pullRequestName := prc.pullRequestName
         authorID := prc.authorID
         status := PRStatus.opened
         createdAt := some now
         mergedAt := none
         assignedReviewers := [] }] }
    ∧ findPR st prc.pullRequestID = none := by
  unfold dbCreatePR at h
  split at h
  · exact absurd h (by simp)
  · rename_i hex
    refine ⟨(Except.ok.inj h).symm, ?_⟩
    rw [Option.eq_none_iff_forall_not_mem]
    simpa [dbPRExists, Option.isSome_iff_exists] using hex

/-- The merge UPDATE preserves the author invariant: it touches neither
authors nor reviewer sets. -/
theorem prInv_dbMergePR (st : St) (prID : String) (now : Nat)
    (hinv : PRInv st) : PRInv (dbMergePR st prID now) := by
  intro pr' hpr'
  simp only [dbMergePR, List.mem_map] at hpr'
  obtain ⟨p, hp, rfl⟩ := hpr'
  by_cases hid : p.pullRequestID = prID
  · subst hid
    simp only [beq_self_eq_true, if_true]
    exact hinv p hp
  · rw [if_neg (by simp [hid])]
    exact hinv p hp

/-- The reviewer-removal DELETE preserves the author invariant (reviewer
sets only shrink) and the author map. -/
theorem prInv_dbRemoveReviewer (st : St) (prID rid author : String)
    (hinv : PRInv st) (hAuth : AuthorsOK prID author st) :
    PRInv (dbRemoveReviewer st prID rid)
    ∧ AuthorsOK prID author (dbRemoveReviewer st prID rid) := by
  constructor
  · intro pr' hpr'
    simp only [dbRemoveReviewer, List.mem_map] at hpr'
    obtain ⟨p, hp, rfl⟩ := hpr'
    by_cases hid : p.pullRequestID = prID
    · subst hid
      simp only [beq_self_eq_true, if_true]
      intro hc
      exact hinv p hp (List.erase_subset _ _ hc)
    · rw [if_neg (by simp [hid])]
      exact hinv p hp
  · intro pr' hpr' hid'
    simp only [dbRemoveReviewer, List.mem_map] at hpr'
    obtain ⟨p, hp, rfl⟩ := hpr'
    by_cases hid : p.pullRequestID = prID
    · subst hid
      simp only [beq_self_eq_true, if_true]
      exact hAuth p hp rfl
    · rw [if_neg (by simp [hid])] at hid' ⊢
      exact absurd hid' hid

/-- Under unique ids, any stored pull request with the looked-up id is the
looked-up row itself. -/
theorem findPR_unique (st : St) (prID : String) (prx : PullRequest)
    (huniq : UniquePRIds st) (hfind : findPR st prID = some prx) :
    ∀ pr ∈ st.prs, pr.pullRequestID = prID → pr = prx := by
  intro pr hp hid
  have hmemx : prx ∈ st.prs := List.mem_of_find?_eq_some hfind
  have hidx : prx.pullRequestID = prID := by
    simpa using List.find?_some hfind
  exact List.inj_on_of_nodup_map huniq hp hmemx (by rw [hid, hidx])

/-- Projection equations of the concrete repositories, used to reduce the
service bodies without inlining the record values. -/
theorem pg_prExistsF (now : Nat) (st : St) (prID : String) :
    (pgPRRepo now).prExistsF st prID = Except.ok (dbPRExists st prID) := rfl

theorem pg_createPullRequestF (now : Nat) (st : St) (prc : PullRequestCreate) :
    (pgPRRepo now).createPullRequestF st prc = dbCreatePR st prc now := rfl

theorem pg_assignReviewerF (now : Nat) (st : St) (prID rid : String) :
    (pgPRRepo now).assignReviewerF st prID rid = dbAssignReviewer st prID rid := rfl

theorem pg_getPullRequestByIDF (now : Nat) (st : St) (prID : String) :
    (pgPRRepo now).getPullRequestByIDF st prID = dbGetPRByID st prID := rfl

theorem pg_mergePullRequestF (now : Nat) (st : St) (prID : String) :
    (pgPRRepo now).mergePullRequestF st prID
      = Except.ok (dbMergePR st prID now) := rfl

theorem pg_removeReviewerF (now : Nat) (st : St) (prID rid : String) :
    (pgPRRepo now).removeReviewerF st prID rid
      = Except.ok (dbRemoveReviewer st prID rid) := rfl

theorem pg_isReviewerAssignedF (now : Nat) (st : St) (prID uid : String) :
    (pgPRRepo now).isReviewerAssignedF st prID uid
      = Except.ok (dbIsReviewerAssigned st prID uid) := rfl

theorem pg_getByIDF (st : St) (uid : String) :
    pgUserRepo.getByIDF st uid
      = match userGetByID st uid with
        | none => Except.error DBErr.noRows
        | some u => Except.ok u := rfl

theorem pg_getActiveByTeamF (st : St) (team : String) (exclude : List String) :
    pgUserRepo.getActiveByTeamF st team exclude
      = Except.ok (dbGetActiveByTeam st team exclude) := rfl

/-- Success inversion for creation: the committed state keeps the author
invariant, and the returned pull request never lists its author as
reviewer. -/
theorem createPullRequest_prInv (indices : List Nat) (st : St)
    (prc : PullRequestCreate) (now : Nat) (st' : St) (pr : PullRequest)
    (hok : createPullRequest (pgPRRepo now) pgUserRepo indices st prc
      = Except.ok (st', pr))
    (hinv : PRInv st) :
    PRInv st' ∧ pr.authorID ∉ pr.assignedReviewers := by
  unfold createPullRequest getPRAuthor getReviewCandidates at hok
  simp only [pg_prExistsF, pg_createPullRequestF, pg_getPullRequestByIDF,
    pg_getByIDF, pg_getActiveByTeamF] at hok
  cases hu : userGetByID st prc.authorID with
  | none =>
    rw [hu] at hok
    exact absurd hok (by simp)
  | some a =>
    rw [hu] at hok
    simp only [] at hok
    cases hex : dbPRExists st prc.pullRequestID with
    | true =>
      rw [hex] at hok
      exact absurd hok (by simp)
    | false =>
      rw [hex] at hok
      simp only [] at hok
      cases hc : dbCreatePR st prc now with
      | error e =>
        rw [hc] at hok
        exact absurd hok (by simp)
      | ok st1 =>
        rw [hc] at hok
        simp only [] at hok
        obtain ⟨hst1eq, hnone⟩ := dbCreatePR_ok st prc now st1 hc
        cases hA : assignAll (pgPRRepo now) prc.pullRequestID st1
            ((selectRandomReviewers indices
              (dbGetActiveByTeam st a.teamName [prc.authorID]) 2).map
                (fun r => r.userID)) with
        | error e =>
          rw [hA] at hok
          exact absurd hok (by simp)
        | ok st2 =>
          rw [hA] at hok
          simp only [dbGetPRByID] at hok
          cases hf : findPR st2 prc.pullRequestID with
          | none =>
            rw [hf] at hok
            exact absurd hok (by simp)
          | some prr =>
            rw [hf] at hok
            simp only [Except.ok.injEq, Prod.mk.injEq] at hok
            obtain ⟨rfl, rfl⟩ := hok
            have hinv1 : PRInv st1 := by
              rw [hst1eq]
              intro q hq
              rcases List.mem_append.mp hq with hql | hqr
              · exact hinv q hql
              · simp only [List.mem_singleton] at hqr
                subst hqr
                simp
            have hAuth1 : AuthorsOK prc.pullRequestID prc.authorID st1 := by
              rw [hst1eq]
              intro q hq hqid
              rcases List.mem_append.mp hq with hql | hqr
              · exact absurd
                  (show (fun pr : PullRequest =>
                    pr.pullRequestID == prc.pullRequestID) q = true by simp [hqid])
                  (List.find?_eq_none.mp hnone q hql)
              · simp only [List.mem_singleton] at hqr
                subst hqr
                rfl
            have hrids : ∀ rid ∈ (selectRandomReviewers indices
                (dbGetActiveByTeam st a.teamName [prc.authorID]) 2).map
                  (fun r => r.userID), rid ≠ prc.authorID := by
              intro rid hr
              simp only [List.mem_map] at hr
              obtain ⟨u, hu1, rfl⟩ := hr
              have hu2 := selectRandomReviewers_mem indices
                (dbGetActiveByTeam st a.teamName [prc.authorID]) 2 u hu1
              simpa using mem_dbGetActiveByTeam_not_excluded st a.teamName
                prc.authorID [] u hu2
            obtain ⟨hinv2, -⟩ := assignAll_inv now prc.pullRequestID prc.authorID
              _ st1 st2 hA hinv1 hAuth1 hrids
            exact ⟨hinv2, hinv2 prr (List.mem_of_find?_eq_some hf)⟩

/-- Success inversion for merge: the committed state keeps the author
invariant, as does the returned pull request. -/
theorem mergePullRequest_prInv (st : St) (prID : String) (now : Nat)
    (st' : St) (pr : PullRequest)
    (hok : mergePullRequest (pgPRRepo now) st prID = Except.ok (st', pr))
    (hinv : PRInv st) :
    PRInv st' ∧ pr.authorID ∉ pr.assignedReviewers := by
  unfold mergePullRequest at hok
  simp only [pg_prExistsF, pg_mergePullRequestF, pg_getPullRequestByIDF,
    dbGetPRByID] at hok
  cases hex : dbPRExists st prID with
  | false =>
    rw [hex] at hok
    exact absurd hok (by simp)
  | true =>
    rw [hex] at hok
    simp only [] at hok
    cases hf : findPR (dbMergePR st prID now) prID with
    | none =>
      rw [hf] at hok
      exact absurd hok (by simp)
    | some q =>
      rw [hf] at hok
      simp only [Except.ok.injEq, Prod.mk.injEq] at hok
      obtain ⟨rfl, rfl⟩ := hok
      have hinv2 := prInv_dbMergePR st prID now hinv
      exact ⟨hinv2, hinv2 q (List.mem_of_find?_eq_some hf)⟩

/-- Success inversion for reassignment: under unique stored ids, the
committed state keeps the author invariant, as does the returned pull
request. -/
theorem reassignReviewer_prInv (indices : List Nat) (st : St)
    (prID oldUserID : String) (now : Nat) (st' : St) (pr : PullRequest)
    (newID : String)
    (hok : reassignReviewer (pgPRRepo now) pgUserRepo indices st prID oldUserID
      = Except.ok (st', pr, newID))
    (hinv : PRInv st) (huniq : UniquePRIds st) :
    PRInv st' ∧ pr.authorID ∉ pr.assignedReviewers := by
  unfold reassignReviewer getReviewCandidates at hok
  simp only [pg_getPullRequestByIDF, pg_isReviewerAssignedF, pg_getByIDF,
    pg_getActiveByTeamF, pg_removeReviewerF, pg_assignReviewerF, dbGetPRByID] at hok
  cases hf : findPR st prID with
  | none =>
    rw [hf] at hok
    exact absurd hok (by simp)
  | some prx =>
    rw [hf] at hok
    simp only [] at hok
    cases hm : prx.isMerged with
    | true =>
      rw [hm, if_pos rfl] at hok
      exact absurd hok (by simp)
    | false =>
      rw [hm, if_neg (by simp)] at hok
      cases hia : dbIsReviewerAssigned st prID oldUserID with
      | false =>
        rw [hia] at hok
        exact absurd hok (by simp)
      | true =>
        rw [hia] at hok
        simp only [] at hok
        cases hou : userGetByID st oldUserID with
        | none =>
          rw [hou] at hok
          exact absurd hok (by simp)
        | some oldR =>
          rw [hou] at hok
          simp only [] at hok
          cases hemp : (dbGetActiveByTeam st oldR.teamName
              (prx.authorID :: prx.assignedReviewers)).isEmpty with
          | true =>
            rw [hemp, if_pos rfl] at hok
            exact absurd hok (by simp)
          | false =>
            rw [hemp, if_neg (by simp)] at hok
            cases hhead : (selectRandomReviewers indices (dbGetActiveByTeam st
                oldR.teamName (prx.authorID :: prx.assignedReviewers)) 1).head? with
            | none =>
              rw [hhead] at hok
              exact absurd hok (by simp)
            | some newR =>
              rw [hhead] at hok
              simp only [] at hok
              cases hasg : dbAssignReviewer (dbRemoveReviewer st prID oldUserID)
                  prID newR.userID with
              | error e =>
                rw [hasg] at hok
                exact absurd hok (by simp)
              | ok st2 =>
                rw [hasg] at hok
                simp only [] at hok
                cases hf2 : findPR st2 prID with
                | none =>
                  rw [hf2] at hok
                  exact absurd hok (by simp)
                | some pr2 =>
                  rw [hf2] at hok
                  simp only [Except.ok.injEq, Prod.mk.injEq] at hok
                  obtain ⟨rfl, rfl, rfl⟩ := hok
                  have hAuth0 : AuthorsOK prID prx.authorID st := by
                    intro q hq hid
                    rw [findPR_unique st prID prx huniq hf q hq hid]
                  obtain ⟨hinv1, hAuth1⟩ := prInv_dbRemoveReviewer st prID
                    oldUserID prx.authorID hinv hAuth0
                  have hnewmem : newR ∈ dbGetActiveByTeam st oldR.teamName
                      (prx.authorID :: prx.assignedReviewers) :=
                    selectRandomReviewers_mem indices _ 1 newR
                      (List.mem_of_mem_head? (by simp [hhead]))
                  have hne : newR.userID ≠ prx.authorID := by
                    have := mem_dbGetActiveByTeam_not_excluded st oldR.teamName
                      prx.authorID prx.assignedReviewers newR hnewmem
                    simp only [List.mem_cons, not_or] at this
                    exact this.1
                  have hst2eq := dbAssignReviewer_ok
                    (dbRemoveReviewer st prID oldUserID) prID newR.userID st2 hasg
                  subst hst2eq
                  obtain ⟨hinv2, -⟩ := prInv_map_assign
                    (dbRemoveReviewer st prID oldUserID) prID newR.userID
                    prx.authorID hinv1 hAuth1 hne
                  exact ⟨hinv2, hinv2 pr2 (List.mem_of_find?_eq_some hf2)⟩

/-- C8: after every successful operation the author-not-reviewer invariant
holds: creation establishes it unconditionally (reviewers are drawn from
active teammates excluding the author); merge and reassignment preserve
it (reassignment additionally relies on the store's unique pull-request
ids and on the exclusion of the author from the candidate set). In each
case the returned hydrated pull request never lists its author. -/
theorem c8_author_never_reviewer :
    (∀ (indices : List Nat) (st : St) (prc : PullRequestCreate) (now : Nat)
       (st' : St) (pr : PullRequest),
       createPullRequest (pgPRRepo now) pgUserRepo indices st prc
         = Except.ok (st', pr) →
       PRInv st → PRInv st' ∧ pr.authorID ∉ pr.assignedReviewers)
    ∧ (∀ (st : St) (prID : String) (now : Nat) (st' : St) (pr : PullRequest),
       mergePullRequest (pgPRRepo now) st prID = Except.ok (st', pr) →
       PRInv st → PRInv st' ∧ pr.authorID ∉ pr.assignedReviewers)
    ∧ (∀ (indices : List Nat) (st : St) (prID oldUserID : String) (now : Nat)
       (st' : St) (pr : PullRequest) (newID : String),
       reassignReviewer (pgPRRepo now) pgUserRepo indices st prID oldUserID
         = Except.ok (st', pr, newID) →
       PRInv st → UniquePRIds st →
       PRInv st' ∧ pr.authorID ∉ pr.assignedReviewers) := by
  refine ⟨?_, ?_, ?_⟩
  · intro indices st prc now st' pr hok hinv
    exact createPullRequest_prInv indices st prc now st' pr hok hinv
  · intro st prID now st' pr hok hinv
    exact mergePullRequest_prInv st prID now st' pr hok hinv
  · intro indices st prID oldUserID now st' pr newID hok hinv huniq
    exact reassignReviewer_prInv indices st prID oldUserID now st' pr newID
      hok hinv huniq

/-- Witness for C8: concrete successful create, merge and reassign runs on
c7State all keep the author out of every reviewer set. -/
theorem c8_author_never_reviewer_witness :
    (PRInv c8CreateAfter ∧ c8CreatedPR.authorID ∉ c8CreatedPR.assignedReviewers)
    ∧ (PRInv { c7State with prs := [c8MergedPR] }
        ∧ c8MergedPR.authorID ∉ c8MergedPR.assignedReviewers)
    ∧ (PRInv c7StateAfter ∧ c7PRAfter.authorID ∉ c7PRAfter.assignedReviewers) := by
  refine ⟨?_, ?_, ?_⟩
  · exact c8_author_never_reviewer.1 [0, 1] c7State
      { pullRequestID := "p9", pullRequestName := "P9", authorID := "a0" }
      2 c8CreateAfter c8CreatedPR (by rfl) (by unfold PRInv c7State; decide)
  · exact c8_author_never_reviewer.2.1 c7State "pr5" 9
      { c7State with prs := [c8MergedPR] } c8MergedPR (by rfl)
      (by unfold PRInv c7State; decide)
  · exact c8_author_never_reviewer.2.2 [0] c7State "pr5" "r1" 9
      c7StateAfter c7PRAfter "r2" (by rfl)
      (by unfold PRInv c7State; decide)
      (by unfold UniquePRIds c7State; decide)

/-- C10: team creation is atomic. Whenever CreateTeam fails — in
particular when the team-row insert fails, or when upserting any member
fails after the team row and earlier members were written inside the
transaction scope — the caller observes the unchanged pre-call state
(neither the team nor any member is persisted) and receives exactly the
single wrapped first failure. -/
theorem c10_create_team_atomic :
    (∀ (T : TeamRepoI) (TU : TeamUserRepoI) (st : St) (team : Team) (e : SvcErr),
      createTeam T TU st team = Except.error e →
      createTeamPost T TU st team = st)
    ∧ (∀ (T : TeamRepoI) (TU : TeamUserRepoI) (st : St) (team : Team) (e : DBErr),
      T.teamExistsF st team.teamName = Except.ok false →
      T.createF st team.teamName = Except.error e →
      createTeam T TU st team = Except.error (SvcErr.internal e)
      ∧ createTeamPost T TU st team = st)
    ∧ (∀ (T : TeamRepoI) (TU : TeamUserRepoI) (st : St) (team : Team)
        (st1 : St) (e : SvcErr),
      T.teamExistsF st team.teamName = Except.ok false →
      T.createF st team.teamName = Except.ok st1 →
      upsertAll TU team.teamName st1 team.members = Except.error e →
      createTeam T TU st team = Except.error e
      ∧ createTeamPost T TU st team = st) := by
  refine ⟨?_, ?_, ?_⟩
  · intro T TU st team e h
    unfold createTeamPost
    rw [h]
  · intro T TU st team e h1 h2
    have h3 : createTeam T TU st team = Except.error (SvcErr.internal e) := by
      unfold createTeam
      rw [h1]
      simp only []
      rw [h2]
    refine ⟨h3, ?_⟩
    unfold createTeamPost
    rw [h3]
  · intro T TU st team st1 e h1 h2 h3
    have h4 : createTeam T TU st team = Except.error e := by
      unfold createTeam
      rw [h1]
      simp only []
      rw [h2]
      simp only []
      rw [h3]
    refine ⟨h4, ?_⟩
    unfold createTeamPost
    rw [h4]

/-- Witness for C10: with the faulty upsert for u2, creating c10Team on
c10State fails with the single wrapped storage failure and persists
neither the team row nor u1 (written before the failure) nor u2/u3. -/
theorem c10_create_team_atomic_witness :
    createTeam pgTeamRepo (c10FaultyUserRepo "u2") c10State c10Team
      = Except.error (SvcErr.internal DBErr.other)
    ∧ createTeamPost pgTeamRepo (c10FaultyUserRepo "u2") c10State c10Team
      = c10State := by
  exact (c10_create_team_atomic.2.2 pgTeamRepo (c10FaultyUserRepo "u2")
    c10State c10Team
    { c10State with teams := c10State.teams ++ ["newteam"] }
    (SvcErr.internal DBErr.other) (by rfl) (by rfl) (by rfl))

